import Mathlib

/-!
Verification development for the `post-automation` repository.

The repository is a Python service that detects AI-generated text in slide
decks and rewrites/restyles them.  This file gives a shallow embedding of the
pure content of the relevant modules:

* `src/post_automation/core/ppt_modifier.py`   (text replacement, styling, hex colors)
* `src/post_automation/core/ai_detector.py`    (classifier wrapper, singleton)
* `src/post_automation/core/content_generator.py` (rule based rewriter)
* `src/post_automation/core/ppt_analyzer.py`   (text extraction)
* `src/post_automation/api/routes/detection.py` and `modification.py` (orchestration)

Python strings are modelled as Lean `String`s over their character lists
(all inputs of interest are ASCII); the python-pptx object tree is modelled
as nested lists of runs carrying the formatting attributes the code touches.
External effects (torch inference, file IO, logging) are abstracted: the
classifier is a parameter `String → ℚ` standing for the softmax probability
the code extracts, and file handling is inlined away.
-/

namespace PostAutomation

/-! ### Python string primitives -/

/-- The ASCII whitespace characters recognised by Python's `str.strip()`
and by the regex class `\s` (inputs here are ASCII). -/
def isPySpace (c : Char) : Bool :=
  c = ' ' || c = '\t' || c = '\n' || c = '\x0d' || c = '\x0b' || c = '\x0c'

/-- Python `str.strip()`: remove leading and trailing whitespace. -/
def pyStripL (l : List Char) : List Char :=
  ((l.dropWhile isPySpace).reverse.dropWhile isPySpace).reverse

/-- Python `str.strip()` on `String`s. -/
def pyStrip (s : String) : String := ⟨pyStripL s.data⟩

/-- Substring scan on character lists. -/
def containsL (p : List Char) : List Char → Bool
  | [] => p.isEmpty
  | c :: cs => p.isPrefixOf (c :: cs) || containsL p cs

/-- Python `old in s` substring test (`"" in s` is `True`). -/
def pyContains (old s : String) : Bool := containsL old.data s.data

/-- Fuel-driven scanner for Python `str.replace`: leftmost, non-overlapping,
case sensitive.  Only called with non-empty pattern `p`; fuel is the length
of the scanned list, which suffices because every step consumes at least one
character. -/
def replaceF (p r : List Char) : Nat → List Char → List Char
  | _, [] => []
  | 0, l => l
  | fuel + 1, c :: cs =>
    if p.isPrefixOf (c :: cs) then r ++ replaceF p r fuel ((c :: cs).drop p.length)
    else c :: replaceF p r fuel cs

/-- Python `s.replace(old, new)`: every non-overlapping occurrence, left to
right.  An empty `old` inserts `new` before every character and at the end,
exactly as in Python. -/
def pyReplace (old new s : String) : String :=
  if old.data.isEmpty then ⟨new.data ++ s.data.flatMap (fun c => c :: new.data)⟩
  else ⟨replaceF old.data new.data s.data.length s.data⟩

/-! ### Hex color parsing (`PPTModifier._hex_to_rgb`)

`_hex_to_rgb` strips leading `#`, slices the remainder as `[0:2]`, `[2:4]`,
`[4:6]` and feeds each slice to Python's `int(·, 16)`.  The slices have at
most two characters, so the `0x`/`0X` prefix form of an integer literal
(which needs at least three characters) can never parse; apart from that the
model below follows `int(·, 16)`: surrounding whitespace is ignored, a single
leading sign is allowed, digits may be separated by single underscores, and
anything else raises `ValueError` (modelled as `none`). -/

/-- Value of a hexadecimal digit character, if it is one. -/
def hexDigit? (c : Char) : Option Nat :=
  if '0' ≤ c ∧ c ≤ '9' then some (c.toNat - '0'.toNat)
  else if 'a' ≤ c ∧ c ≤ 'f' then some (c.toNat - 'a'.toNat + 10)
  else if 'A' ≤ c ∧ c ≤ 'F' then some (c.toNat - 'A'.toNat + 10)
  else none

/-- Continue parsing hex digits after the first one, allowing single
underscores between digits (Python integer-literal rule). -/
def hexDigitsGo : List Char → Nat → Option Nat
  | [], acc => some acc
  | c :: rest, acc =>
    if c = '_' then
      match rest with
      | [] => none
      | c2 :: rest2 =>
        match hexDigit? c2 with
        | some d => hexDigitsGo rest2 (16 * acc + d)
        | none => none
    else
      match hexDigit? c with
      | some d => hexDigitsGo rest (16 * acc + d)
      | none => none

/-- Parse a non-empty run of hex digits (with optional single underscores
between digits). -/
def parseHexNum : List Char → Option Nat
  | [] => none
  | c :: rest =>
    match hexDigit? c with
    | some d => hexDigitsGo rest d
    | none => none

/-- Python `int(s, 16)` as used by `_hex_to_rgb` (slices of ≤ 2 characters,
hence no `0x` prefix form): strip whitespace, optional sign, hex digits. -/
def pyIntHex (s : String) : Option Int :=
  match pyStripL s.data with
  | [] => none
  | c :: rest =>
    if c = '+' then (parseHexNum rest).map fun n => (n : Int)
    else if c = '-' then (parseHexNum rest).map fun n => -(n : Int)
    else (parseHexNum (c :: rest)).map fun n => (n : Int)

/-- Python slice `s[i:j]` (for `0 ≤ i ≤ j`). -/
def pySlice (l : List Char) (i j : Nat) : List Char := (l.drop i).take (j - i)

/-- The tuple comprehension of `_hex_to_rgb`: parse the three 2-character
slices of `t` as base-16 integers.  `none` models the `ValueError` escaping
the generator expression. -/
def hexTriple (t : List Char) : Option (Int × Int × Int) :=
  match pyIntHex ⟨pySlice t 0 2⟩, pyIntHex ⟨pySlice t 2 4⟩, pyIntHex ⟨pySlice t 4 6⟩ with
  | some r, some g, some b => some (r, g, b)
  | _, _, _ => none

/-- `PPTModifier._hex_to_rgb`: `hex_color.lstrip("#")` (strip *all* leading
`#`), then the three slices. -/
def hex_to_rgb (hex_color : String) : Option (Int × Int × Int) :=
  hexTriple (hex_color.data.dropWhile (· = '#'))

/-! ### Rule-based rewriter (`ContentGenerator`)

`generate` applies, in table order, `re.compile(re.escape(phrase),
re.IGNORECASE).sub(replacement, text)` for each entry of
`word_replacements`, then three fixed cleanup regexes.  An escaped phrase is
a literal, so each substitution is a case-insensitive leftmost
non-overlapping literal replacement.  The cleanup regexes are specialised
matchers below (`\b` = word/non-word boundary, `\s` = whitespace,
`\w` = word character; inputs are ASCII). -/

/-- ASCII case-insensitive character comparison (`re.IGNORECASE`). -/
def lowEq (a b : Char) : Bool := a.toLower == b.toLower

/-- Case-insensitive literal prefix test. -/
def ciPrefix : List Char → List Char → Bool
  | [], _ => true
  | _ :: _, [] => false
  | p :: ps, c :: cs => lowEq p c && ciPrefix ps cs

/-- Fuel-driven case-insensitive literal substitution (leftmost,
non-overlapping), the meaning of `re.sub` with an escaped pattern.
Patterns in the table are non-empty, so fuel = input length suffices. -/
def ciSubF (p r : List Char) : Nat → List Char → List Char
  | _, [] => []
  | 0, l => l
  | fuel + 1, c :: cs =>
    if ciPrefix p (c :: cs) then r ++ ciSubF p r fuel ((c :: cs).drop p.length)
    else c :: ciSubF p r fuel cs

/-- One table entry of `generate`'s loop. -/
def ciSub (p r s : String) : String := ⟨ciSubF p.data r.data s.data.length s.data⟩

/-- Regex `\w`: word character. -/
def isWordChar (c : Char) : Bool := c.isAlphanum || c = '_'

/-- Case-insensitive strip of a literal prefix, returning the remainder. -/
def stripCI : List Char → List Char → Option (List Char)
  | [], l => some l
  | _ :: _, [] => none
  | p :: ps, c :: cs => if lowEq p c then stripCI ps cs else none

/-- Match `w1 ++ \s+ ++ w2 ++ \b` at the head of `l` (both words start and
end with word characters here, so the inner boundaries are implied). -/
def matchPair (w1 w2 : List Char) (l : List Char) : Option (List Char) :=
  match stripCI w1 l with
  | none => none
  | some l1 =>
    let sp := l1.takeWhile isPySpace
    let l2 := l1.dropWhile isPySpace
    if sp.isEmpty then none
    else
      match stripCI w2 l2 with
      | none => none
      | some l3 =>
        match l3 with
        | [] => some []
        | c :: _ => if isWordChar c then none else some l3

/-- Match `is being\s+(\w+ed)\b` at the head of `l`: the literal (with its
single interior space), one or more whitespace, then a maximal word-character
run that has length ≥ 3 and ends in `ed` (case-insensitively); the trailing
`\b` holds exactly because the run is maximal.  Returns the captured run and
the remainder. -/
def matchIsBeing (l : List Char) : Option (List Char × List Char) :=
  match stripCI "is being".data l with
  | none => none
  | some l1 =>
    let sp := l1.takeWhile isPySpace
    let l2 := l1.dropWhile isPySpace
    if sp.isEmpty then none
    else
      let run := l2.takeWhile isWordChar
      let rest := l2.drop run.length
      match run.reverse with
      | d :: e :: _ :: _ => if lowEq d 'd' && lowEq e 'e' then some (run, rest) else none
      | _ => none

/-- Fuel-driven `re.sub` scanner for a pattern that begins with `\b` and a
word character: at each position where the previous character is not a word
character, try `m`, which yields the replacement text and the remainder; on
success resume after the match.  This is exactly the left-to-right
non-overlapping scan of `re.sub`. -/
def reSubF (m : List Char → Option (List Char × List Char)) :
    Nat → Bool → List Char → List Char
  | _, _, [] => []
  | 0, _, l => l
  | fuel + 1, prevW, c :: cs =>
    if prevW then c :: reSubF m fuel (isWordChar c) cs
    else
      match m (c :: cs) with
      | some (rep, rest) => rep ++ reSubF m fuel true rest
      | none => c :: reSubF m fuel (isWordChar c) cs

/-- `re.sub(r"\bthat\s+that\b", "that", text, flags=re.IGNORECASE)`. -/
def subThatThat (s : String) : String :=
  ⟨reSubF (fun l => (matchPair "that".data "that".data l).map fun rest =>
      ("that".data, rest)) s.data.length false s.data⟩

/-- `re.sub(r"\bis being\s+(\w+ed)\b", r"is \1", text, flags=re.IGNORECASE)`. -/
def subIsBeing (s : String) : String :=
  ⟨reSubF (fun l => (matchIsBeing l).map fun pr =>
      ("is ".data ++ pr.1, pr.2)) s.data.length false s.data⟩

/-- `re.sub(r"\bvery\s+very\b", "very", text, flags=re.IGNORECASE)`. -/
def subVeryVery (s : String) : String :=
  ⟨reSubF (fun l => (matchPair "very".data "very".data l).map fun rest =>
      ("very".data, rest)) s.data.length false s.data⟩

/-- `ContentGenerator._simplify_sentences`. -/
def simplify_sentences (s : String) : String := subVeryVery (subIsBeing (subThatThat s))

/-- `ContentGenerator.word_replacements`, in dict insertion order (Python
dicts iterate in insertion order). -/
def word_replacements : List (String × String) :=
  [("utilize", "use"),
   ("in order to", "to"),
   ("due to the fact that", "because"),
   ("at this point in time", "now"),
   ("in the event that", "if"),
   ("for the purpose of", "to"),
   ("prior to", "before"),
   ("subsequent to", "after"),
   ("in close proximity to", "near"),
   ("is able to", "can"),
   ("has the ability to", "can"),
   ("in spite of", "despite"),
   ("on a regular basis", "regularly"),
   ("in the near future", "soon"),
   ("at the present time", "currently"),
   ("make a decision", "decide"),
   ("give consideration to", "consider"),
   ("make an assumption", "assume"),
   ("conduct an investigation", "investigate"),
   ("perform an analysis", "analyze")]

/-- `ContentGenerator.generate`: the substitution table in listed order, then
the cleanup patterns. -/
def generate (text : String) : String :=
  simplify_sentences (word_replacements.foldl (fun acc pr => ciSub pr.1 pr.2 acc) text)

/-! ### Python truthiness helpers -/

/-- Truthiness of an optional string (`None` and `""` are falsy). -/
def pyTruthyOptStr : Option String → Bool
  | none => false
  | some s => s ≠ ""

/-- Truthiness of an optional integer (`None` and `0` are falsy). -/
def pyTruthyOptInt : Option Int → Bool
  | none => false
  | some n => n ≠ 0

/-- Truthiness of an optional `RGBColor` (an `int` subclass packing the three
bytes, so pure black `(0,0,0)` packs to `0` and is falsy). -/
def pyTruthyOptColor : Option (Int × Int × Int) → Bool
  | none => false
  | some t => t ≠ (0, 0, 0)

/-! ### The python-pptx object tree

A run carries the text plus exactly the formatting attributes the code
touches.  `colorType = some 1` models `font.color.type == MSO_THEME_COLOR.RGB`
(an explicitly set direct color); assigning `font.color.rgb` stores the value
and makes the type RGB.  Font size is in EMU (`Pt(x)` is `x * 12700`).
A shape optionally has a text frame and optionally a table (python-pptx
shapes have one or the other; grouped shapes, which none of the modification
code descends into, are not modelled).  A table cell is modelled by its text
frame. -/

structure Run where
  text : String
  name : Option String := none
  size : Option Int := none
  bold : Option Bool := none
  italic : Option Bool := none
  colorType : Option Nat := none
  colorRgb : Option (Int × Int × Int) := none
deriving DecidableEq, Repr

structure Frame where
  paragraphs : List (List Run)
deriving DecidableEq, Repr

structure Shape where
  frame : Option Frame := none
  table : Option (List (List Frame)) := none
deriving DecidableEq, Repr

abbrev Slide := List Shape

abbrev Doc := List Slide

/-- All runs of a frame, in paragraph/run order. -/
def runsOfFrame (f : Frame) : List Run := f.paragraphs.flatten

/-- All runs of a table, in row/cell order. -/
def runsOfTable (t : List (List Frame)) : List Run :=
  t.flatMap fun row => row.flatMap runsOfFrame

/-- All runs of a shape: text frame first, then table cells, matching the
code's visit order. -/
def runsOfShape (sh : Shape) : List Run :=
  (match sh.frame with
   | some f => runsOfFrame f
   | none => []) ++
  (match sh.table with
   | some t => runsOfTable t
   | none => [])

/-- All runs of a slide in shape encounter order. -/
def runsOfSlide (sl : Slide) : List Run := sl.flatMap runsOfShape

/-- All runs of a document. -/
def runsOfDoc (d : Doc) : List Run := d.flatMap runsOfSlide

/-! ### Content replacement (`PPTModifier`) -/

/-- `Replacement` (`models/ppt.py`): `slide_num` is declared with `ge=0`, so
it is a natural number. -/
structure Replacement where
  slide_num : Nat
  old_text : String
  new_text : String
deriving DecidableEq, Repr

/-- The per-run body of `PPTModifier._replace_text_in_frame`: if the run's
text contains `old_text`, snapshot the font attributes, assign the replaced
text, and write back every truthy snapshot (`bold`/`italic` use `is not
None`; the color is snapshotted only when it is an explicit RGB color). -/
def replaceRun (old new : String) (r : Run) : Run :=
  if pyContains old r.text then
    let font_name := r.name
    let font_size := r.size
    let font_bold := r.bold
    let font_italic := r.italic
    let font_color := if r.colorType = some 1 then r.colorRgb else none
    let r1 : Run := { r with text := pyReplace old new r.text }
    let r2 := if pyTruthyOptStr font_name then { r1 with name := font_name } else r1
    let r3 := if pyTruthyOptInt font_size then { r2 with size := font_size } else r2
    let r4 := if font_bold.isSome then { r3 with bold := font_bold } else r3
    let r5 := if font_italic.isSome then { r4 with italic := font_italic } else r4
    if pyTruthyOptColor font_color then
      { r5 with colorRgb := font_color, colorType := some 1 }
    else r5
  else r

/-- `PPTModifier._replace_text_in_frame`: every run of every paragraph. -/
def replace_text_in_frame (old new : String) (f : Frame) : Frame :=
  { paragraphs := f.paragraphs.map fun p => p.map (replaceRun old new) }

/-- `PPTModifier._replace_text_in_table`: every cell of every row (the
`try/except` around the loop has nothing to catch in this model). -/
def replace_text_in_table (old new : String) (t : List (List Frame)) :
    List (List Frame) :=
  t.map fun row => row.map (replace_text_in_frame old new)

/-- The body of `PPTModifier._replace_in_slide` after the range guard:
visit each shape's text frame and table. -/
def replace_in_slide (old new : String) (sl : Slide) : Slide :=
  sl.map fun sh =>
    { frame := sh.frame.map (replace_text_in_frame old new),
      table := sh.table.map (replace_text_in_table old new) }

/-- `PPTModifier._replace_in_slide`: a `slide_num` at or past the slide count
returns before touching the presentation (logged warning only). -/
def replace_in_doc (doc : Doc) (slide_num : Nat) (old new : String) : Doc :=
  if doc.length ≤ slide_num then doc
  else doc.set slide_num (replace_in_slide old new (doc.getD slide_num []))

/-- `PPTModifier.replace_content`: apply each replacement in order (the
`try/except` per replacement has nothing to catch in this model). -/
def replace_content (doc : Doc) (reps : List Replacement) : Doc :=
  reps.foldl (fun d rep => replace_in_doc d rep.slide_num rep.old_text rep.new_text) doc

/-! ### Style overrides (`PPTModifier.modify_styles`)

`modify_styles` walks every slide/shape and applies the non-falsy fields of
the `StyleConfig` to every run.  Applying the color requires
`_hex_to_rgb` and `RGBColor(*rgb)` to succeed; a `ValueError` raised inside
a text frame aborts the whole walk (python-pptx mutations made so far are
kept), while the same error inside a table is caught by the `try/except` in
`_apply_styles_to_table` and the walk continues with the next shape.  The
walk is modelled in an `Except` monad whose error also carries the
partially-mutated value. -/

structure ColorScheme where
  text_color : Option String := none
  background_color : Option String := none
deriving DecidableEq, Repr

structure StyleConfig where
  font_name : Option String := none
  font_size : Option Int := none
  color_scheme : Option ColorScheme := none
deriving DecidableEq, Repr

/-- `style_config.color_scheme and style_config.color_scheme.text_color`
(a present pydantic model instance is always truthy). -/
def colorRequested (cfg : StyleConfig) : Bool :=
  match cfg.color_scheme with
  | none => false
  | some cs => pyTruthyOptStr cs.text_color

/-- The requested text color string (only meaningful when
`colorRequested`). -/
def textColorOf (cfg : StyleConfig) : String :=
  match cfg.color_scheme with
  | none => ""
  | some cs => cs.text_color.getD ""

/-- `RGBColor(*rgb)` after `_hex_to_rgb`: the constructor accepts exactly
three integer values in 0–255 and raises `ValueError` otherwise. -/
def styleColorValue (cfg : StyleConfig) : Option (Int × Int × Int) :=
  match hex_to_rgb (textColorOf cfg) with
  | some (r, g, b) =>
    if 0 ≤ r ∧ r ≤ 255 ∧ 0 ≤ g ∧ g ≤ 255 ∧ 0 ≤ b ∧ b ≤ 255 then some (r, g, b) else none
  | none => none

/-- Collapse an `Except` whose error also carries a value: the in-memory
presentation state after the call, whether or not it raised. -/
def exCollapse : Except α α → α
  | .ok a => a
  | .error a => a

/-- Run an abortive per-element action over a list: on the first error the
remaining elements are left untouched and the error propagates. -/
def exList (f : α → Except α α) : List α → Except (List α) (List α)
  | [] => .ok []
  | x :: xs =>
    match f x with
    | .ok y =>
      match exList f xs with
      | .ok ys => .ok (y :: ys)
      | .error ys => .error (y :: ys)
    | .error y => .error (y :: xs)

/-- The per-run body of `_apply_styles_to_frame`: font name, then size
(`Pt(font_size)` is `font_size * 12700` EMU), then color; computing the
color raises `ValueError` when the hex string or the `RGBColor` arguments
are invalid, after the name and size were already assigned. -/
def styleRun (cfg : StyleConfig) (r : Run) : Except Run Run :=
  let r1 := if pyTruthyOptStr cfg.font_name then { r with name := cfg.font_name } else r
  let r2 := if pyTruthyOptInt cfg.font_size then
      { r1 with size := cfg.font_size.map (· * 12700) } else r1
  if colorRequested cfg then
    match styleColorValue cfg with
    | some rgb => .ok { r2 with colorRgb := some rgb, colorType := some 1 }
    | none => .error r2
  else .ok r2

/-- `_apply_styles_to_frame`. -/
def styleFrame (cfg : StyleConfig) (f : Frame) : Except Frame Frame :=
  match exList (exList (styleRun cfg)) f.paragraphs with
  | .ok ps => .ok { paragraphs := ps }
  | .error ps => .error { paragraphs := ps }

/-- The cell walk of `_apply_styles_to_table` (before its `try/except`). -/
def styleRows (cfg : StyleConfig) (t : List (List Frame)) :
    Except (List (List Frame)) (List (List Frame)) :=
  exList (exList (styleFrame cfg)) t

/-- `_apply_styles_to_table`: any exception from the walk is caught and
logged, keeping the mutations made so far. -/
def styleTable (cfg : StyleConfig) (t : List (List Frame)) : List (List Frame) :=
  exCollapse (styleRows cfg t)

/-- One shape in `modify_styles`' walk: the text frame first (an error there
propagates before the table is touched), then the table with its swallowed
errors. -/
def styleShape (cfg : StyleConfig) (sh : Shape) : Except Shape Shape :=
  match sh.frame with
  | some f =>
    match styleFrame cfg f with
    | .ok f1 => .ok { frame := some f1, table := sh.table.map (styleTable cfg) }
    | .error f1 => .error { frame := some f1, table := sh.table }
  | none => .ok { frame := none, table := sh.table.map (styleTable cfg) }

/-- The slide/shape walk of `modify_styles`. -/
def styleSlides (cfg : StyleConfig) (d : Doc) : Except Doc Doc :=
  exList (exList (styleShape cfg)) d

/-- `PPTModifier.modify_styles`: the first component is the presentation
state after the call (partial if a `ValueError` escaped), the second is
whether the call raised. -/
def modify_styles (cfg : StyleConfig) (d : Doc) : Doc × Bool :=
  match styleSlides cfg d with
  | .ok d1 => (d1, false)
  | .error d1 => (d1, true)

/-- The run as `_apply_styles_to_frame` leaves it, whether or not the color
step then raised (name and size are already assigned when the `ValueError`
occurs). -/
def styleRunTot (cfg : StyleConfig) (r : Run) : Run := exCollapse (styleRun cfg r)

/-! ### Classifier wrapper (`ai_detector.py`)

`AIDetector.detect` tokenises the text, runs the model, softmaxes the
logits and takes `float(probabilities[0][1])` as the AI probability.  The
external model is abstracted as a function `classifier : String → ℚ`
returning that probability (softmax guarantees it lies in `[0,1]`; theorems
take that as a hypothesis).  The length check against
`MIN_TEXT_LENGTH_FOR_DETECTION` only logs a warning and changes nothing. -/

structure DetectionResult where
  is_ai_generated : Bool
  confidence : ℚ
  label : String
  model_name : String
deriving DecidableEq, Repr

/-- `AIDetector.detect`. -/
def detect (model_name : String) (classifier : String → ℚ) (text : String) :
    DetectionResult :=
  let ai_probability := classifier text
  let is_ai : Bool := ai_probability > 1/2
  { is_ai_generated := is_ai
    confidence := ai_probability
    label := if is_ai then "AI" else "Human"
    model_name := model_name }

/-- The loaded detector: only the resolved model identifier matters to the
claims (tokenizer/model handles are abstracted away). -/
structure AIDetector where
  model_name : String
deriving DecidableEq, Repr

/-- `model_name or settings.hf_model_name` in `AIDetector.__init__`
(an empty requested string is falsy and also falls back to the default). -/
def resolveModelName (requested : Option String) (default_model : String) : String :=
  match requested with
  | some s => if s = "" then default_model else s
  | none => default_model

/-- One call to `get_detector`, threading the module-global
`_detector_instance`.  Returns the detector handed to the caller, the new
global state, and the number of model loads this call performed. -/
def get_detector (st : Option AIDetector) (requested : Option String)
    (default_model : String) : AIDetector × Option AIDetector × Nat :=
  match st with
  | some d => (d, some d, 0)
  | none =>
    let d : AIDetector := { model_name := resolveModelName requested default_model }
    (d, some d, 1)

/-- A sequence of `get_detector` calls: the detectors returned to the
callers, the final global state, and the total number of model loads. -/
def runGetDetector (default_model : String) :
    Option AIDetector → List (Option String) → List AIDetector × Option AIDetector × Nat
  | st, [] => ([], st, 0)
  | st, req :: rest =>
    let out := get_detector st req default_model
    let outs := runGetDetector default_model out.2.1 rest
    (out.1 :: outs.1, outs.2.1, out.2.2 + outs.2.2)

/-! ### Text extraction (`ppt_analyzer.py`)

`extract_text_from_pptx` produces one `SlideText` per slide: the
space-joined shape texts whose `strip()` is non-empty.  A shape's text is the
space-join of its paragraphs' stripped non-empty texts and (for tables) the
space-joined stripped non-empty cell texts.  `paragraph.text` concatenates
the run texts; `cell.text` joins the cell's paragraph texts with `"\n"`.
(Grouped shapes, which carry no runs in this model, are not modelled.) -/

structure SlideText where
  slide_number : Nat
  text : String
  shape_count : Nat
deriving DecidableEq, Repr

/-- Python `sep.join(parts)`. -/
def pyJoin (sep : String) : List String → String
  | [] => ""
  | [x] => x
  | x :: y :: rest => x ++ sep ++ pyJoin sep (y :: rest)

/-- python-pptx `paragraph.text`. -/
def paragraphText (p : List Run) : String := pyJoin "" (p.map Run.text)

/-- python-pptx `text_frame.text` / `cell.text`. -/
def frameText (f : Frame) : String :=
  pyJoin "\n" (f.paragraphs.map paragraphText)

/-- `PPTAnalyzer._extract_table_text`: stripped non-empty cell texts in
row/cell order, space-joined. -/
def tableText (t : List (List Frame)) : String :=
  pyJoin " " (((t.flatMap id).map fun cell => pyStrip (frameText cell)).filter (· ≠ ""))

/-- `PPTAnalyzer._extract_text_from_shape` (text frame part and table part;
this model has no grouped shapes). -/
def shapeText (sh : Shape) : String :=
  let frame_parts :=
    match sh.frame with
    | some f => ((f.paragraphs.map fun p => pyStrip (paragraphText p)).filter (· ≠ ""))
    | none => []
  let table_parts :=
    match sh.table with
    | some t => if tableText t ≠ "" then [tableText t] else []
    | none => []
  pyJoin " " (frame_parts ++ table_parts)

/-- The per-slide body of `PPTAnalyzer.extract_text_from_pptx`: shape texts
whose `strip()` is truthy, space-joined. -/
def slideCombinedText (sl : Slide) : String :=
  pyJoin " " ((sl.map shapeText).filter fun t => pyStrip t ≠ "")

/-- `PPTAnalyzer.extract_text_from_pptx`. -/
def extract_text (doc : Doc) : List SlideText :=
  doc.enum.map fun pr =>
    { slide_number := pr.1, text := slideCombinedText pr.2, shape_count := pr.2.length }

/-! ### Detection route (`api/routes/detection.py`, `detect_pptx`)

The handler extracts the slide texts, then for each slide either calls
`detector.detect` (when `slide_text.text.strip()` is truthy) or fabricates
the fixed non-AI result with confidence `0.0` and label `"Human"`.  The
model below is instrumented with the list of texts the classifier was
actually invoked on. -/

structure SlideDetection where
  slide_number : Nat
  text : String
  detection : DetectionResult
deriving DecidableEq, Repr

structure PresentationDetection where
  file_name : String
  total_slides : Nat
  ai_slides : Nat
  human_slides : Nat
  slides : List SlideDetection
deriving DecidableEq, Repr

/-- The per-slide loop of `detect_pptx`: returns the `SlideDetection` list,
the AI count, and the texts sent to the classifier. -/
def detectLoop (model_name : String) (classifier : String → ℚ) :
    List SlideText → List SlideDetection × Nat × List String
  | [] => ([], 0, [])
  | st :: rest =>
    let outs := detectLoop model_name classifier rest
    if pyStrip st.text ≠ "" then
      let d := detect model_name classifier st.text
      (⟨st.slide_number, st.text, d⟩ :: outs.1,
       (if d.is_ai_generated then 1 else 0) + outs.2.1,
       st.text :: outs.2.2)
    else
      (⟨st.slide_number, "",
        { is_ai_generated := false, confidence := 0, label := "Human",
          model_name := model_name }⟩ :: outs.1,
       outs.2.1, outs.2.2)

/-- `detect_pptx` on already-extracted slide texts: the response plus the
classifier invocations. -/
def detect_pptx (model_name : String) (classifier : String → ℚ)
    (file_name : String) (slides_text : List SlideText) :
    PresentationDetection × List String :=
  let outs := detectLoop model_name classifier slides_text
  ({ file_name := file_name
     total_slides := slides_text.length
     ai_slides := outs.2.1
     human_slides := slides_text.length - outs.2.1
     slides := outs.1 }, outs.2.2)

/-! ### Modification route (`api/routes/modification.py`, `modify_pptx`)

Step 1 (when `replace_ai_content`): extract slide texts, detect each
non-blank one, and queue a `Replacement` when the detection is AI with
confidence at or above the threshold, the new text coming from the
rewriter; then apply the replacements.  Step 2: when `font_name` or
`text_color` is truthy, build the `StyleConfig` and run `modify_styles`. -/

/-- The replacement-building loop of `modify_pptx`. -/
def buildReplacements (classifier : String → ℚ) (model_name : String)
    (confidence_threshold : ℚ) (slides_text : List SlideText) : List Replacement :=
  slides_text.foldr
    (fun st acc =>
      if pyStrip st.text = "" then acc
      else
        let d := detect model_name classifier st.text
        if d.is_ai_generated ∧ d.confidence ≥ confidence_threshold then
          { slide_num := st.slide_number, old_text := st.text,
            new_text := generate st.text } :: acc
        else acc)
    []

/-- The `StyleConfig` built by `modify_pptx` (`font_size` is never set;
`color_scheme` only when `text_color` is truthy). -/
def mkStyleConfig (font_name text_color : Option String) : StyleConfig :=
  { font_name := font_name
    font_size := none
    color_scheme :=
      if pyTruthyOptStr text_color then
        some { text_color := text_color, background_color := none }
      else none }

/-- `modify_pptx` on the in-memory document: step 1 (conditional content
replacement) then step 2 (conditional global styling). -/
def modify_pptx (classifier : String → ℚ) (model_name : String)
    (replace_ai_content : Bool) (font_name text_color : Option String)
    (confidence_threshold : ℚ) (doc : Doc) : Doc :=
  let doc1 :=
    if replace_ai_content then
      replace_content doc
        (buildReplacements classifier model_name confidence_threshold (extract_text doc))
    else doc
  if pyTruthyOptStr font_name || pyTruthyOptStr text_color then
    (modify_styles (mkStyleConfig font_name text_color) doc1).1
  else doc1

/-! ### Generic per-run mapping (specification view of the walks)

Both the replacement walk and the (non-raising) style walk transform every
run independently; these combinators express that view for the theorems. -/

/-- Apply `g` to every run of a frame. -/
def mapRunsFrame (g : Run → Run) (f : Frame) : Frame :=
  { paragraphs := f.paragraphs.map (List.map g) }

/-- Apply `g` to every run of a shape. -/
def mapRunsShape (g : Run → Run) (sh : Shape) : Shape :=
  { frame := sh.frame.map (mapRunsFrame g)
    table := sh.table.map fun t => t.map (List.map (mapRunsFrame g)) }

/-- Apply `g` to every run of a slide. -/
def mapRunsSlide (g : Run → Run) (sl : Slide) : Slide := sl.map (mapRunsShape g)

/-- Apply `g` to every run of a document. -/
def mapRunsDoc (g : Run → Run) (d : Doc) : Doc := d.map (mapRunsSlide g)

/-- The value of the hexadecimal digit at position `i` (specification view
for the hex-conversion theorem). -/
def hvInt (t : List Char) (i : Nat) : Int := ((hexDigit? (t.getD i '0')).getD 0 : Nat)

/-- The byte encoded by the two hexadecimal digits at positions `i`, `i+1`. -/
def hbInt (t : List Char) (i : Nat) : Int := 16 * hvInt t i + hvInt t (i + 1)

/-! ## Theorems -/

/-- A hexadecimal digit is not whitespace, a sign, or an underscore. -/
theorem hex_not_special (c : Char) (h : (hexDigit? c).isSome) :
    isPySpace c = false ∧ c ≠ '+' ∧ c ≠ '-' ∧ c ≠ '_' := by
  refine ⟨?_, ?_, ?_, ?_⟩
  · by_contra hsp
    have hT : isPySpace c = true := by
      cases hE : isPySpace c
      · exact absurd hE hsp
      · rfl
    have : c = ' ' ∨ c = '\t' ∨ c = '\n' ∨ c = '\x0d' ∨ c = '\x0b' ∨ c = '\x0c' := by
      simpa [isPySpace, or_assoc] using hT
    rcases this with h1 | h1 | h1 | h1 | h1 | h1 <;> rw [h1] at h <;>
      exact absurd h (by decide)
  · intro h1; rw [h1] at h; exact absurd h (by decide)
  · intro h1; rw [h1] at h; exact absurd h (by decide)
  · intro h1; rw [h1] at h; exact absurd h (by decide)

/-- `dropWhile` is the identity on a list whose elements all fail `p`
(only the head matters). -/
theorem dropWhile_eq_self_of (p : Char → Bool) (l : List Char)
    (h : ∀ c ∈ l, p c = false) : l.dropWhile p = l := by
  cases l with
  | nil => rfl
  | cons c rest => simp [List.dropWhile_cons, h c (by simp)]

/-- Stripping whitespace is the identity on a list of hex digits. -/
theorem pyStripL_of_hex (l : List Char) (h : ∀ c ∈ l, (hexDigit? c).isSome) :
    pyStripL l = l := by
  have hns : ∀ c ∈ l, isPySpace c = false := fun c hc => (hex_not_special c (h c hc)).1
  unfold pyStripL
  rw [dropWhile_eq_self_of _ _ hns,
    dropWhile_eq_self_of _ _ (fun c hc => hns c (List.mem_reverse.mp hc)),
    List.reverse_reverse]

/-- Parsing two hex digits. -/
theorem parseHexNum_pair (a b : Char) (ha : (hexDigit? a).isSome)
    (hb : (hexDigit? b).isSome) :
    parseHexNum [a, b] = some (16 * (hexDigit? a).getD 0 + (hexDigit? b).getD 0) := by
  obtain ⟨da, hda⟩ := Option.isSome_iff_exists.mp ha
  obtain ⟨db, hdb⟩ := Option.isSome_iff_exists.mp hb
  simp [parseHexNum, hexDigitsGo, hda, hdb, (hex_not_special b hb).2.2.2]

/-- Parsing one hex digit. -/
theorem parseHexNum_single (a : Char) (ha : (hexDigit? a).isSome) :
    parseHexNum [a] = some ((hexDigit? a).getD 0) := by
  obtain ⟨da, hda⟩ := Option.isSome_iff_exists.mp ha
  simp [parseHexNum, hexDigitsGo, hda]

/-- `int(·, 16)` on a two-hex-digit string. -/
theorem pyIntHex_pair (a b : Char) (ha : (hexDigit? a).isSome)
    (hb : (hexDigit? b).isSome) :
    pyIntHex ⟨[a, b]⟩ = some (16 * hvInt [a, b] 0 + hvInt [a, b] 1) := by
  have hstrip : pyStripL [a, b] = [a, b] := by
    refine pyStripL_of_hex _ fun c hc => ?_
    simp only [List.mem_cons, List.not_mem_nil, or_false] at hc
    rcases hc with rfl | rfl
    · exact ha
    · exact hb
  have hns := hex_not_special a ha
  simp [pyIntHex, hstrip, hns.2.1, hns.2.2.1, parseHexNum_pair a b ha hb, hvInt]

/-- `int(·, 16)` on a one-hex-digit string. -/
theorem pyIntHex_single (a : Char) (ha : (hexDigit? a).isSome) :
    pyIntHex ⟨[a]⟩ = some (hvInt [a] 0) := by
  have hstrip : pyStripL [a] = [a] := by
    refine pyStripL_of_hex _ fun c hc => ?_
    simp only [List.mem_cons, List.not_mem_nil, or_false] at hc
    subst hc
    exact ha
  have hns := hex_not_special a ha
  simp [pyIntHex, hstrip, hns.2.1, hns.2.2.1, parseHexNum_single a ha, hvInt]

/-- `int("", 16)` raises. -/
theorem pyIntHex_nil : pyIntHex "" = none := by decide

/-- The three-slice comprehension on a list of hex digits: six digits give
the three bytes, five digits still succeed (the third "byte" is the single
trailing digit), fewer than five raise. -/
theorem hexTriple_of_hex (t : List Char) (hhex : ∀ c ∈ t, (hexDigit? c).isSome) :
    (t.length = 6 → hexTriple t = some (hbInt t 0, hbInt t 2, hbInt t 4)) ∧
    (t.length = 5 → hexTriple t = some (hbInt t 0, hbInt t 2, hvInt t 4)) ∧
    (t.length < 5 → hexTriple t = none) := by
  rcases t with _ | ⟨a, _ | ⟨b, _ | ⟨c, _ | ⟨d, _ | ⟨e, _ | ⟨f, rest⟩⟩⟩⟩⟩⟩
  · exact ⟨fun h => by simp at h, fun h => by simp at h, fun _ => by decide⟩
  · have ha := hhex a (by simp)
    refine ⟨fun h => by simp at h, fun h => by simp at h, fun _ => ?_⟩
    simp [hexTriple, pySlice, pyIntHex_nil, pyIntHex_single a ha]
  · have ha := hhex a (by simp)
    have hb := hhex b (by simp)
    refine ⟨fun h => by simp at h, fun h => by simp at h, fun _ => ?_⟩
    simp [hexTriple, pySlice, pyIntHex_nil, pyIntHex_pair a b ha hb]
  · have ha := hhex a (by simp)
    have hb := hhex b (by simp)
    have hc := hhex c (by simp)
    refine ⟨fun h => by simp at h, fun h => by simp at h, fun _ => ?_⟩
    simp [hexTriple, pySlice, pyIntHex_nil, pyIntHex_pair a b ha hb,
      pyIntHex_single c hc]
  · have ha := hhex a (by simp)
    have hb := hhex b (by simp)
    have hc := hhex c (by simp)
    have hd := hhex d (by simp)
    refine ⟨fun h => by simp at h, fun h => by simp at h, fun _ => ?_⟩
    simp [hexTriple, pySlice, pyIntHex_nil, pyIntHex_pair a b ha hb,
      pyIntHex_pair c d hc hd]
  · have ha := hhex a (by simp)
    have hb := hhex b (by simp)
    have hc := hhex c (by simp)
    have hd := hhex d (by simp)
    have he := hhex e (by simp)
    refine ⟨fun h => by simp at h, fun _ => ?_, fun h => by simp at h⟩
    simp [hexTriple, pySlice, pyIntHex_pair a b ha hb, pyIntHex_pair c d hc hd,
      pyIntHex_single e he, hbInt, hvInt]
  · have ha := hhex a (by simp)
    have hb := hhex b (by simp)
    have hc := hhex c (by simp)
    have hd := hhex d (by simp)
    have he := hhex e (by simp)
    have hf := hhex f (by simp)
    refine ⟨fun hlen => ?_, fun hlen => by simp at hlen,
      fun hlen => by simp at hlen; omega⟩
    have hrest : rest = [] := by
      simp only [List.length_cons] at hlen
      exact List.length_eq_zero.mp (by omega)
    subst hrest
    simp [hexTriple, pySlice, pyIntHex_pair a b ha hb, pyIntHex_pair c d hc hd,
      pyIntHex_pair e f he hf, hbInt, hvInt]

/-- **C10, counterexample.** `"#FFFFF"` has only five hex digits after
stripping `#`, yet `_hex_to_rgb` succeeds, returning `(255, 255, 15)` — the
third slice `"F"` is a valid one-digit base-16 literal — so "fewer than 6
hex digits raises `ValueError`" is false; similarly `"+1FFFF"` contains the
non-hex character `+` and still succeeds, because `int(·, 16)` accepts a
sign. -/
theorem c10_counterexample :
    hex_to_rgb "#FFFFF" = some (255, 255, 15) ∧
    hex_to_rgb "#FFFFF" ≠ none ∧
    hex_to_rgb "+1FFFF" = some (1, 255, 255) := by
  refine ⟨by decide, by decide, by decide⟩

/-- **C10, amended.** After stripping leading `#`: exactly 6 hex digits
yield the three byte values; exactly 5 hex digits still succeed, with the
third component parsed from the single trailing digit; fewer than 5 hex
digits raise `ValueError` (so 3-digit shorthand like `"#FFF"` still fails
the style-application step). -/
theorem c10_hex_partiality (s : String)
    (hhex : ∀ c ∈ s.data.dropWhile (· = '#'), (hexDigit? c).isSome) :
    ((s.data.dropWhile (· = '#')).length = 6 →
      hex_to_rgb s = some (hbInt (s.data.dropWhile (· = '#')) 0,
        hbInt (s.data.dropWhile (· = '#')) 2,
        hbInt (s.data.dropWhile (· = '#')) 4)) ∧
    ((s.data.dropWhile (· = '#')).length = 5 →
      hex_to_rgb s = some (hbInt (s.data.dropWhile (· = '#')) 0,
        hbInt (s.data.dropWhile (· = '#')) 2,
        hvInt (s.data.dropWhile (· = '#')) 4)) ∧
    ((s.data.dropWhile (· = '#')).length < 5 → hex_to_rgb s = none) :=
  hexTriple_of_hex (s.data.dropWhile (· = '#')) hhex

/-- Witness for C10 (amended): the 6-digit input `"#A1B2C3"`. -/
theorem c10_hex_partiality_witness :
    (∀ c ∈ ("#A1B2C3" : String).data.dropWhile (· = '#'), (hexDigit? c).isSome) ∧
    ((("#A1B2C3" : String).data.dropWhile (· = '#')).length = 6 →
      hex_to_rgb "#A1B2C3" = some (hbInt (("#A1B2C3" : String).data.dropWhile (· = '#')) 0,
        hbInt (("#A1B2C3" : String).data.dropWhile (· = '#')) 2,
        hbInt (("#A1B2C3" : String).data.dropWhile (· = '#')) 4)) :=
  ⟨by decide, (c10_hex_partiality "#A1B2C3" (by decide)).1⟩

/-- Flattening the runs commutes with a per-run map (frame level). -/
theorem runsOfFrame_mapRuns (g : Run → Run) (f : Frame) :
    runsOfFrame (mapRunsFrame g f) = (runsOfFrame f).map g := by
  simp [runsOfFrame, mapRunsFrame, List.map_flatten]

/-- Flattening the runs commutes with a per-run map (shape level). -/
theorem runsOfShape_mapRuns (g : Run → Run) (sh : Shape) :
    runsOfShape (mapRunsShape g sh) = (runsOfShape sh).map g := by
  rcases sh with ⟨fr, tb⟩
  rcases fr with _ | f <;> rcases tb with _ | t <;>
    simp [runsOfShape, mapRunsShape, runsOfTable, runsOfFrame_mapRuns,
      List.map_flatMap, List.flatMap_map]

/-- Flattening the runs commutes with a per-run map (slide level). -/
theorem runsOfSlide_mapRuns (g : Run → Run) (sl : Slide) :
    runsOfSlide (mapRunsSlide g sl) = (runsOfSlide sl).map g := by
  simp [runsOfSlide, mapRunsSlide, List.map_flatMap, List.flatMap_map,
    runsOfShape_mapRuns]

/-- Flattening the runs commutes with a per-run map (document level). -/
theorem runsOfDoc_mapRuns (g : Run → Run) (d : Doc) :
    runsOfDoc (mapRunsDoc g d) = (runsOfDoc d).map g := by
  simp [runsOfDoc, mapRunsDoc, List.map_flatMap, List.flatMap_map,
    runsOfSlide_mapRuns]

/-- The snapshot/restore dance of `_replace_text_in_frame` writes back the
very values it saved, so a run is just its old self with the replaced text
(formatting untouched); runs not containing `old` are untouched entirely. -/
theorem replaceRun_eq (old new : String) (r : Run) :
    replaceRun old new r =
      if pyContains old r.text then { r with text := pyReplace old new r.text }
      else r := by
  rcases r with ⟨text, name, size, bold, italic, colorType, colorRgb⟩
  simp only [replaceRun]
  split_ifs with h1 h2 h3 h4 h5 h6 <;> simp_all [pyTruthyOptColor]

/-- The replacement walk is the per-run map of `replaceRun`. -/
theorem replace_in_slide_eq_mapRuns (old new : String) (sl : Slide) :
    replace_in_slide old new sl = mapRunsSlide (replaceRun old new) sl := by
  rfl

/-- **C1, counterexample.** A slide with one paragraph of two runs, both
`"hello"`: applying the replacement `"hell" → "heaven"` modifies *both*
runs (the second becomes `"heaveno"`, no longer its original `"hello"`),
refuting the claim that only the first run containing `old_text` is
modified and every other run's text is left unchanged. -/
theorem c1_counterexample :
    (runsOfSlide
        [({ frame := some ⟨[[{ text := "hello" }, { text := "hello" }]]⟩ } : Shape)]).map
      Run.text = ["hello", "hello"] ∧
    (runsOfSlide (replace_in_slide "hell" "heaven"
        [({ frame := some ⟨[[{ text := "hello" }, { text := "hello" }]]⟩ } : Shape)])).map
      Run.text = ["heaveno", "heaveno"] ∧
    ("heaveno" : String) ≠ "hello" := by
  refine ⟨by decide, by decide, by decide⟩

/-- **C1, amended.** Applying a replacement to a target slide rewrites
*every* formatting-run (in shape/paragraph/run encounter order, including
table cells) whose text contains `old_text`, replacing every occurrence of
`old_text` in that run's text; runs whose text does not contain `old_text`
are left unchanged, and formatting is preserved throughout. -/
theorem c1_replace_all_matching_runs (old new : String) (sl : Slide) :
    runsOfSlide (replace_in_slide old new sl) =
      (runsOfSlide sl).map fun r =>
        if pyContains old r.text then { r with text := pyReplace old new r.text }
        else r := by
  rw [replace_in_slide_eq_mapRuns, runsOfSlide_mapRuns]
  exact List.map_congr_left fun r _ => replaceRun_eq old new r

/-- **C3.** A `Replacement` whose slide index is at or past the number of
slides (out of range: `slide_num` is non-negative by the pydantic `ge=0`
constraint) leaves the document unchanged: `_replace_in_slide` returns at
the range guard before touching any slide, so nothing can raise (the model
is a total function). -/
theorem c3_out_of_range_noop (doc : Doc) (slide_num : Nat) (old new : String)
    (h : doc.length ≤ slide_num) :
    replace_in_doc doc slide_num old new = doc := by
  simp [replace_in_doc, h]

/-- Witness for C3: a 1-slide document and slide index 3. -/
theorem c3_out_of_range_noop_witness :
    ([[({ frame := some ⟨[[{ text := "hi" }]]⟩ } : Shape)]] : Doc).length ≤ 3 ∧
    replace_in_doc [[({ frame := some ⟨[[{ text := "hi" }]]⟩ } : Shape)]] 3 "hi" "bye" =
      [[({ frame := some ⟨[[{ text := "hi" }]]⟩ } : Shape)]] :=
  ⟨by decide,
   c3_out_of_range_noop [[({ frame := some ⟨[[{ text := "hi" }]]⟩ } : Shape)]] 3 "hi" "bye"
     (by decide)⟩

/-- **C4.** On the spec's concrete input the rewriter produces exactly
`"to use the system, before deployment, one must investigate,"`, which
contains the required phrase: the substitution table applied in listed
order, case-insensitively, before the cleanup patterns. -/
theorem c4_rewriter_concrete :
    generate "In order to utilize the system, prior to deployment, one must conduct an investigation," =
      "to use the system, before deployment, one must investigate," ∧
    pyContains "to use the system, before deployment, one must investigate"
      (generate "In order to utilize the system, prior to deployment, one must conduct an investigation,") = true := by
  constructor
  · decide
  · decide

/-- **C5.** For any text (in particular any text of length ≥ 10, the
documented minimum) and any classifier probability in `[0,1]` (softmax
output), `detect` returns that probability as the confidence, sets
`is_ai_generated` iff it exceeds `0.5`, and labels `"AI"` exactly when
`is_ai_generated`. -/
theorem c5_detect_confidence (model_name : String) (classifier : String → ℚ)
    (text : String) (_hlen : 10 ≤ text.length)
    (h0 : 0 ≤ classifier text) (h1 : classifier text ≤ 1) :
    0 ≤ (detect model_name classifier text).confidence ∧
    (detect model_name classifier text).confidence ≤ 1 ∧
    ((detect model_name classifier text).is_ai_generated = true ↔
      (detect model_name classifier text).confidence > 1/2) ∧
    ((detect model_name classifier text).label = "AI" ↔
      (detect model_name classifier text).is_ai_generated = true) := by
  refine ⟨h0, h1, ?_, ?_⟩
  · simp [detect]
  · by_cases h : classifier text > 1/2 <;> simp [detect, h]

/-- Witness for C5: a 10-character text and a classifier returning 3/4. -/
theorem c5_detect_confidence_witness :
    10 ≤ ("abcdefghij" : String).length ∧
    0 ≤ (3 / 4 : ℚ) ∧ (3 / 4 : ℚ) ≤ 1 ∧
    (0 ≤ (detect "m" (fun _ => 3/4) "abcdefghij").confidence ∧
     (detect "m" (fun _ => 3/4) "abcdefghij").confidence ≤ 1 ∧
     ((detect "m" (fun _ => 3/4) "abcdefghij").is_ai_generated = true ↔
       (detect "m" (fun _ => 3/4) "abcdefghij").confidence > 1/2) ∧
     ((detect "m" (fun _ => 3/4) "abcdefghij").label = "AI" ↔
       (detect "m" (fun _ => 3/4) "abcdefghij").is_ai_generated = true)) :=
  ⟨by decide, by norm_num, by norm_num,
   c5_detect_confidence "m" (fun _ => 3/4) "abcdefghij" (by decide) (by norm_num)
     (by norm_num)⟩

/-- **C2, counterexample.** Starting from a fresh process, calling
`get_detector` with model `"A"` and then with model `"B"` returns, on the
second call, the already-cached instance whose `model_name` is `"A" ≠ "B"`,
and performs no second load: the cache is *not* keyed by model identifier,
refuting the claim that the first call for each identifier loads that model
and later calls for it get an instance with that `model_name`. -/
theorem c2_counterexample :
    ((runGetDetector "default" none [some "A", some "B"]).1.map AIDetector.model_name
      = ["A", "A"]) ∧
    ("A" : String) ≠ "B" ∧
    (runGetDetector "default" none [some "A", some "B"]).2.2 = 1 := by
  refine ⟨by decide, by decide, by decide⟩

/-- After the singleton is populated, every further call returns it
unchanged and loads nothing. -/
theorem runGetDetector_loaded (default_model : String) (d : AIDetector) :
    ∀ calls : List (Option String),
      runGetDetector default_model (some d) calls =
        (List.replicate calls.length d, some d, 0) := by
  intro calls
  induction calls with
  | nil => rfl
  | cons c rest ih => simp [runGetDetector, get_detector, ih, List.replicate_succ]

/-- **C2, amended.** The detector is a single shared process-wide instance
keyed by nothing: the first call (whatever it requests) loads the model once
for the resolved identifier of *that* call, and every subsequent call —
regardless of the identifier it requests — returns the same instance with no
further load. -/
theorem c2_singleton_unkeyed (default_model : String) (calls : List (Option String))
    (hne : calls ≠ []) :
    ∃ d : AIDetector,
      (runGetDetector default_model none calls).2.1 = some d ∧
      d.model_name = resolveModelName (calls.headD none) default_model ∧
      (runGetDetector default_model none calls).2.2 = 1 ∧
      ∀ r ∈ (runGetDetector default_model none calls).1, r = d := by
  match calls, hne with
  | c :: rest, _ =>
    refine ⟨{ model_name := resolveModelName c default_model }, ?_, rfl, ?_, ?_⟩
    · simp [runGetDetector, get_detector, runGetDetector_loaded]
    · simp [runGetDetector, get_detector, runGetDetector_loaded]
    · intro r hr
      simp only [runGetDetector, get_detector, runGetDetector_loaded] at hr
      rcases List.mem_cons.mp hr with h | h
      · exact h
      · exact List.eq_of_mem_replicate h

/-- Witness for C2 (amended): a single call requesting `"A"`. -/
theorem c2_singleton_unkeyed_witness :
    ([some "A"] : List (Option String)) ≠ [] ∧
    ∃ d : AIDetector,
      (runGetDetector "dm" none [some "A"]).2.1 = some d ∧
      d.model_name = resolveModelName (([some "A"] : List (Option String)).headD none) "dm" ∧
      (runGetDetector "dm" none [some "A"]).2.2 = 1 ∧
      ∀ r ∈ (runGetDetector "dm" none [some "A"]).1, r = d :=
  ⟨by decide, c2_singleton_unkeyed "dm" [some "A"] (by decide)⟩

/-- The detection loop yields one entry per slide, and its running counter
counts exactly the entries whose detection is AI. -/
theorem detectLoop_length_count (mn : String) (cl : String → ℚ) (sts : List SlideText) :
    (detectLoop mn cl sts).1.length = sts.length ∧
    (detectLoop mn cl sts).2.1 =
      ((detectLoop mn cl sts).1.filter fun sd => sd.detection.is_ai_generated).length := by
  induction sts with
  | nil => simp [detectLoop]
  | cons st rest ih =>
    by_cases h : pyStrip st.text ≠ "" <;>
      by_cases hai : (detect mn cl st.text).is_ai_generated <;>
        simp [detectLoop, h, hai, List.filter_cons, ih.1, ih.2] <;> omega

/-- **C9.** Every response of the document detection route satisfies
`ai_slides + human_slides = total_slides`, has exactly `total_slides`
per-slide entries, and `ai_slides` counts exactly the entries whose
detection is AI. -/
theorem c9_presentation_invariants (mn : String) (cl : String → ℚ)
    (fname : String) (sts : List SlideText) :
    (detect_pptx mn cl fname sts).1.ai_slides +
        (detect_pptx mn cl fname sts).1.human_slides =
      (detect_pptx mn cl fname sts).1.total_slides ∧
    (detect_pptx mn cl fname sts).1.slides.length =
      (detect_pptx mn cl fname sts).1.total_slides ∧
    (detect_pptx mn cl fname sts).1.ai_slides =
      ((detect_pptx mn cl fname sts).1.slides.filter fun sd =>
        sd.detection.is_ai_generated).length := by
  have h := detectLoop_length_count mn cl sts
  have hle : (detectLoop mn cl sts).2.1 ≤ sts.length := by
    rw [h.2, ← h.1]
    exact List.length_filter_le _ _
  refine ⟨?_, ?_, ?_⟩ <;> simp [detect_pptx, h.1, h.2] <;> omega

/-- **C6.** A slide whose extracted text strips to empty gets the fixed
entry (`is_ai_generated = false`, confidence exactly `0`, label `"Human"`,
its own slide number) in the response, and the classifier is never invoked
on any blank text: every text actually sent to it strips non-empty. -/
theorem c6_empty_slides (mn : String) (cl : String → ℚ) (fname : String)
    (sts : List SlideText) :
    (∀ i (h : i < sts.length), pyStrip (sts.get ⟨i, h⟩).text = "" →
      (detect_pptx mn cl fname sts).1.slides[i]? =
        some ⟨(sts.get ⟨i, h⟩).slide_number, "",
          { is_ai_generated := false, confidence := 0, label := "Human",
            model_name := mn }⟩) ∧
    (∀ t ∈ (detect_pptx mn cl fname sts).2, pyStrip t ≠ "") := by
  constructor
  · intro i h hblank
    simp only [detect_pptx]
    induction sts generalizing i with
    | nil => exact absurd h (by simp)
    | cons st rest ih =>
      match i with
      | 0 =>
        simp at hblank
        simp [detectLoop, hblank]
      | i + 1 =>
        have h2 : i < rest.length := by simpa using h
        have hb2 : pyStrip (rest.get ⟨i, h2⟩).text = "" := by simpa using hblank
        have hrec := ih i h2 hb2
        by_cases hb : pyStrip st.text ≠ "" <;>
          simpa [detectLoop, hb] using hrec
  · intro t ht
    simp only [detect_pptx] at ht
    induction sts with
    | nil => simp [detectLoop] at ht
    | cons st rest ih =>
      by_cases hb : pyStrip st.text ≠ ""
      · simp [detectLoop, hb] at ht
        rcases ht with h | h
        · simpa [h] using hb
        · exact ih (by simpa [detectLoop] using h)
      · simp [detectLoop, hb] at ht
        exact ih (by simpa [detectLoop] using ht)

/-- Witness for C6: a single slide whose extracted text is `" "`. -/
theorem c6_empty_slides_witness :
    pyStrip (⟨0, " ", 1⟩ : SlideText).text = "" ∧
    (detect_pptx "m" (fun _ => 1) "f" [⟨0, " ", 1⟩]).1.slides[0]? =
      some ⟨0, "",
        { is_ai_generated := false, confidence := 0, label := "Human",
          model_name := "m" }⟩ :=
  ⟨by decide,
   (c6_empty_slides "m" (fun _ => 1) "f" [⟨0, " ", 1⟩]).1 0 (by decide) (by decide)⟩

/-! ### Style-walk lemmas (towards C7 and C8)

`styleRun` fails exactly when a color is requested but unparsable — a
condition depending only on the config, not on the run — and its value
either way is `styleRunTot`.  The walk combinator `exList` is then analysed
generically. -/

/-- Characterisation of `styleRun` by the config-only failure condition. -/
theorem styleRun_eq_tot (cfg : StyleConfig) (r : Run) :
    styleRun cfg r =
      if colorRequested cfg = true ∧ styleColorValue cfg = none then
        .error (styleRunTot cfg r)
      else .ok (styleRunTot cfg r) := by
  by_cases hreq : colorRequested cfg
  · cases hval : styleColorValue cfg
    · simp [styleRun, styleRunTot, exCollapse, hreq, hval]
    · simp [styleRun, styleRunTot, exCollapse, hreq, hval]
  · simp [styleRun, styleRunTot, exCollapse, hreq]

/-- Restyling an already-styled run changes nothing. -/
theorem styleRunTot_idem (cfg : StyleConfig) (r : Run) :
    styleRunTot cfg (styleRunTot cfg r) = styleRunTot cfg r := by
  rcases r with ⟨t, nm, sz, bd, it, ct, cr⟩
  by_cases hreq : colorRequested cfg
  · cases hval : styleColorValue cfg <;>
      by_cases hn : pyTruthyOptStr cfg.font_name <;>
        by_cases hs : pyTruthyOptInt cfg.font_size <;>
          simp [styleRunTot, styleRun, exCollapse, hreq, hval, hn, hs]
  · by_cases hn : pyTruthyOptStr cfg.font_name <;>
      by_cases hs : pyTruthyOptInt cfg.font_size <;>
        simp [styleRunTot, styleRun, exCollapse, hreq, hn, hs]

/-- Re-running `styleRun` on its own collapsed output reproduces the same
outcome. -/
theorem styleRun_stab (cfg : StyleConfig) (r : Run) :
    styleRun cfg (styleRunTot cfg r) = styleRun cfg r := by
  rw [styleRun_eq_tot cfg (styleRunTot cfg r), styleRun_eq_tot cfg r, styleRunTot_idem]

/-- If re-running `f` on each collapsed output reproduces the outcome, the
same holds for the abortive list walk. -/
theorem exList_stab (f : α → Except α α) (hstab : ∀ x, f (exCollapse (f x)) = f x)
    (l : List α) : exList f (exCollapse (exList f l)) = exList f l := by
  induction l with
  | nil => rfl
  | cons x xs ih =>
    cases hx : f x with
    | error y =>
      have hy : f y = .error y := by
        have h2 := hstab x
        rw [hx] at h2
        simpa [exCollapse] using h2
      simp [exList, hx, exCollapse, hy]
    | ok y =>
      have hy : f y = .ok y := by
        have h2 := hstab x
        rw [hx] at h2
        simpa [exCollapse] using h2
      cases hxs : exList f xs with
      | ok ys =>
        have ihy : exList f ys = .ok ys := by
          rw [hxs] at ih
          simpa [exCollapse] using ih
        simp [exList, hx, hxs, exCollapse, hy, ihy]
      | error ys =>
        have ihy : exList f ys = .error ys := by
          rw [hxs] at ih
          simpa [exCollapse] using ih
        simp [exList, hx, hxs, exCollapse, hy, ihy]

/-- When `f` never fails, the walk is just a map. -/
theorem exList_ok_map (f : α → Except α α) (g : α → α)
    (hok : ∀ x, f x = .ok (g x)) (l : List α) : exList f l = .ok (l.map g) := by
  induction l with
  | nil => rfl
  | cons x xs ih => simp [exList, hok x, ih]

/-- A projection preserved by each collapsed outcome of `f` is preserved by
the collapsed walk, positionally. -/
theorem exList_collapse_proj (f : α → Except α α) (q : α → β)
    (hq : ∀ x, q (exCollapse (f x)) = q x) (l : List α) :
    (exCollapse (exList f l)).map q = l.map q := by
  induction l with
  | nil => rfl
  | cons x xs ih =>
    have hqx : q (exCollapse (f x)) = q x := hq x
    cases hx : f x with
    | error y =>
      rw [hx] at hqx
      simp only [exCollapse] at hqx
      simp [exList, hx, exCollapse, hqx]
    | ok y =>
      rw [hx] at hqx
      simp only [exCollapse] at hqx
      cases hxs : exList f xs with
      | ok ys =>
        rw [hxs] at ih
        simp only [exCollapse] at ih
        simp [exList, hx, hxs, exCollapse, hqx, ih]
      | error ys =>
        rw [hxs] at ih
        simp only [exCollapse] at ih
        simp [exList, hx, hxs, exCollapse, hqx, ih]

/-- Collapsing `styleFrame` collapses the inner walk. -/
theorem exCollapse_styleFrame (cfg : StyleConfig) (f : Frame) :
    exCollapse (styleFrame cfg f) =
      { paragraphs := exCollapse (exList (exList (styleRun cfg)) f.paragraphs) } := by
  cases h : exList (exList (styleRun cfg)) f.paragraphs <;>
    simp [styleFrame, h, exCollapse]

/-- Re-running the run walk on its collapsed output reproduces it. -/
theorem styleRuns_stab (cfg : StyleConfig) (l : List Run) :
    exList (styleRun cfg) (exCollapse (exList (styleRun cfg) l)) =
      exList (styleRun cfg) l :=
  exList_stab _ (styleRun_stab cfg) l

/-- Re-running the paragraph walk on its collapsed output reproduces it. -/
theorem styleParas_stab (cfg : StyleConfig) (ps : List (List Run)) :
    exList (exList (styleRun cfg)) (exCollapse (exList (exList (styleRun cfg)) ps)) =
      exList (exList (styleRun cfg)) ps :=
  exList_stab _ (styleRuns_stab cfg) ps

/-- Re-running `styleFrame` on its collapsed output reproduces it. -/
theorem styleFrame_stab (cfg : StyleConfig) (f : Frame) :
    styleFrame cfg (exCollapse (styleFrame cfg f)) = styleFrame cfg f := by
  rw [exCollapse_styleFrame]
  show styleFrame cfg ⟨exCollapse (exList (exList (styleRun cfg)) f.paragraphs)⟩ =
    styleFrame cfg f
  unfold styleFrame
  rw [styleParas_stab]

/-- Re-running the cell walk on its collapsed output reproduces it. -/
theorem styleCells_stab (cfg : StyleConfig) (row : List Frame) :
    exList (styleFrame cfg) (exCollapse (exList (styleFrame cfg) row)) =
      exList (styleFrame cfg) row :=
  exList_stab _ (styleFrame_stab cfg) row

/-- Re-running the row walk on its collapsed output reproduces it. -/
theorem styleRows_stab (cfg : StyleConfig) (t : List (List Frame)) :
    styleRows cfg (exCollapse (styleRows cfg t)) = styleRows cfg t :=
  exList_stab _ (styleCells_stab cfg) t

/-- Styling a table twice equals styling it once (`_apply_styles_to_table`
swallows its own errors, keeping partial work). -/
theorem styleTable_idem (cfg : StyleConfig) (t : List (List Frame)) :
    styleTable cfg (styleTable cfg t) = styleTable cfg t := by
  unfold styleTable
  rw [styleRows_stab]

/-- Re-running `styleShape` on its collapsed output reproduces it. -/
theorem styleShape_stab (cfg : StyleConfig) (sh : Shape) :
    styleShape cfg (exCollapse (styleShape cfg sh)) = styleShape cfg sh := by
  rcases sh with ⟨fr, tb⟩
  have htb : ∀ o : Option (List (List Frame)),
      (o.map (styleTable cfg)).map (styleTable cfg) = o.map (styleTable cfg) := by
    intro o
    cases o with
    | none => rfl
    | some t => simp [styleTable_idem]
  cases fr with
  | none => simp [styleShape, exCollapse, htb]
  | some f =>
    cases hf : styleFrame cfg f with
    | ok f1 =>
      have hf1 : styleFrame cfg f1 = .ok f1 := by
        have h2 := styleFrame_stab cfg f
        rw [hf] at h2
        simpa [exCollapse] using h2
      simp [styleShape, hf, exCollapse, hf1, htb]
    | error f1 =>
      have hf1 : styleFrame cfg f1 = .error f1 := by
        have h2 := styleFrame_stab cfg f
        rw [hf] at h2
        simpa [exCollapse] using h2
      simp [styleShape, hf, exCollapse, hf1]

/-- Re-running the slide walk on its collapsed output reproduces it. -/
theorem styleSlides_stab (cfg : StyleConfig) (d : Doc) :
    styleSlides cfg (exCollapse (styleSlides cfg d)) = styleSlides cfg d :=
  exList_stab _ (exList_stab _ (styleShape_stab cfg)) d

/-- The document state after `modify_styles` is the collapsed walk. -/
theorem modify_styles_fst (cfg : StyleConfig) (d : Doc) :
    (modify_styles cfg d).1 = exCollapse (styleSlides cfg d) := by
  cases h : styleSlides cfg d <;> simp [modify_styles, h, exCollapse]

/-- When no color is requested, or the requested color parses, `styleRun`
never fails. -/
theorem styleRun_ok (cfg : StyleConfig)
    (hsucc : colorRequested cfg = true → (styleColorValue cfg).isSome) (r : Run) :
    styleRun cfg r = .ok (styleRunTot cfg r) := by
  rw [styleRun_eq_tot]
  by_cases hreq : colorRequested cfg
  · have := hsucc hreq
    cases hval : styleColorValue cfg
    · rw [hval] at this
      exact absurd this (by decide)
    · simp [hreq, hval]
  · simp [hreq]

/-- In the non-failing regime, `styleFrame` maps every run. -/
theorem styleFrame_ok (cfg : StyleConfig)
    (hsucc : colorRequested cfg = true → (styleColorValue cfg).isSome) (f : Frame) :
    styleFrame cfg f = .ok (mapRunsFrame (styleRunTot cfg) f) := by
  unfold styleFrame
  rw [exList_ok_map _ _ (fun l =>
    exList_ok_map _ _ (styleRun_ok cfg hsucc) l) f.paragraphs]
  rfl

/-- In the non-failing regime, `styleTable` maps every run. -/
theorem styleTable_ok (cfg : StyleConfig)
    (hsucc : colorRequested cfg = true → (styleColorValue cfg).isSome)
    (t : List (List Frame)) :
    styleTable cfg t = t.map (List.map (mapRunsFrame (styleRunTot cfg))) := by
  unfold styleTable styleRows
  rw [exList_ok_map _ _ (fun row =>
    exList_ok_map _ _ (styleFrame_ok cfg hsucc) row) t]
  rfl

/-- In the non-failing regime, `styleShape` maps every run. -/
theorem styleShape_ok (cfg : StyleConfig)
    (hsucc : colorRequested cfg = true → (styleColorValue cfg).isSome) (sh : Shape) :
    styleShape cfg sh = .ok (mapRunsShape (styleRunTot cfg) sh) := by
  rcases sh with ⟨fr, tb⟩
  cases fr with
  | none =>
    simp [styleShape, mapRunsShape]
    cases tb with
    | none => rfl
    | some t => simp [styleTable_ok cfg hsucc]
  | some f =>
    simp [styleShape, styleFrame_ok cfg hsucc, mapRunsShape]
    cases tb with
    | none => rfl
    | some t => simp [styleTable_ok cfg hsucc]

/-- In the non-failing regime, `modify_styles` does not raise and maps every
run of the document. -/
theorem modify_styles_ok (cfg : StyleConfig)
    (hsucc : colorRequested cfg = true → (styleColorValue cfg).isSome) (d : Doc) :
    modify_styles cfg d = (mapRunsDoc (styleRunTot cfg) d, false) := by
  unfold modify_styles styleSlides
  rw [exList_ok_map _ _ (fun sl =>
    exList_ok_map _ _ (styleShape_ok cfg hsucc) sl) d]
  rfl

/-- A truthy `font_name` is written onto every styled run (even when the
color step later raises, the name was already assigned). -/
theorem styleRunTot_name_set (cfg : StyleConfig) (r : Run)
    (h : pyTruthyOptStr cfg.font_name = true) :
    (styleRunTot cfg r).name = cfg.font_name := by
  by_cases hreq : colorRequested cfg
  · cases hval : styleColorValue cfg <;>
      by_cases hs : pyTruthyOptInt cfg.font_size <;>
        simp [styleRunTot, styleRun, exCollapse, h, hreq, hval, hs]
  · by_cases hs : pyTruthyOptInt cfg.font_size <;>
      simp [styleRunTot, styleRun, exCollapse, h, hreq, hs]

/-- A requested, parsable color is written onto every styled run. -/
theorem styleRunTot_color_set (cfg : StyleConfig) (r : Run) (rgb : Int × Int × Int)
    (hreq : colorRequested cfg = true) (hval : styleColorValue cfg = some rgb) :
    (styleRunTot cfg r).colorRgb = some rgb := by
  simp [styleRunTot, styleRun, exCollapse, hreq, hval]

/-- A null `font_name` leaves every run's font name unchanged. -/
theorem styleRunTot_name_pres (cfg : StyleConfig) (r : Run)
    (h : cfg.font_name = none) : (styleRunTot cfg r).name = r.name := by
  by_cases hreq : colorRequested cfg
  · cases hval : styleColorValue cfg <;>
      by_cases hs : pyTruthyOptInt cfg.font_size <;>
        simp [styleRunTot, styleRun, exCollapse, h, pyTruthyOptStr, hreq, hval, hs]
  · by_cases hs : pyTruthyOptInt cfg.font_size <;>
      simp [styleRunTot, styleRun, exCollapse, h, pyTruthyOptStr, hreq, hs]

/-- A null `font_size` leaves every run's size unchanged. -/
theorem styleRunTot_size_pres (cfg : StyleConfig) (r : Run)
    (h : cfg.font_size = none) : (styleRunTot cfg r).size = r.size := by
  by_cases hreq : colorRequested cfg
  · cases hval : styleColorValue cfg <;>
      by_cases hn : pyTruthyOptStr cfg.font_name <;>
        simp [styleRunTot, styleRun, exCollapse, h, pyTruthyOptInt, hreq, hval, hn]
  · by_cases hn : pyTruthyOptStr cfg.font_name <;>
      simp [styleRunTot, styleRun, exCollapse, h, pyTruthyOptInt, hreq, hn]

/-- When no color is requested, every run's color is unchanged. -/
theorem styleRunTot_color_pres (cfg : StyleConfig) (r : Run)
    (h : colorRequested cfg = false) :
    (styleRunTot cfg r).colorRgb = r.colorRgb ∧
    (styleRunTot cfg r).colorType = r.colorType := by
  by_cases hn : pyTruthyOptStr cfg.font_name <;>
    by_cases hs : pyTruthyOptInt cfg.font_size <;>
      simp [styleRunTot, styleRun, exCollapse, h, hn, hs]

/-- Projection preservation through the collapsed frame walk. -/
theorem collapse_proj_frame (cfg : StyleConfig) (p : Run → β)
    (hp : ∀ r, p (styleRunTot cfg r) = p r) (f : Frame) :
    (runsOfFrame (exCollapse (styleFrame cfg f))).map p = (runsOfFrame f).map p := by
  rw [exCollapse_styleFrame]
  show (exCollapse (exList (exList (styleRun cfg)) f.paragraphs)).flatten.map p =
    f.paragraphs.flatten.map p
  rw [List.map_flatten, List.map_flatten]
  exact congrArg List.flatten
    (exList_collapse_proj _ (List.map p)
      (fun l => exList_collapse_proj _ p (fun r => hp r) l) f.paragraphs)

/-- Projection preservation through a styled table. -/
theorem collapse_proj_table (cfg : StyleConfig) (p : Run → β)
    (hp : ∀ r, p (styleRunTot cfg r) = p r) (t : List (List Frame)) :
    (runsOfTable (styleTable cfg t)).map p = (runsOfTable t).map p := by
  have hcell : ∀ fr : Frame,
      (runsOfFrame (exCollapse (styleFrame cfg fr))).map p = (runsOfFrame fr).map p :=
    collapse_proj_frame cfg p hp
  have hrow : ∀ row : List Frame,
      ((exCollapse (exList (styleFrame cfg) row)).map
        fun fr => (runsOfFrame fr).map p) = row.map fun fr => (runsOfFrame fr).map p :=
    exList_collapse_proj _ _ hcell
  have hrows := exList_collapse_proj (exList (styleFrame cfg))
    (fun row => row.map fun fr => (runsOfFrame fr).map p) hrow t
  unfold styleTable styleRows
  unfold runsOfTable
  rw [List.map_flatMap, List.map_flatMap]
  have key : ∀ (rows : List (List Frame)),
      rows.map (fun row => row.map fun fr => (runsOfFrame fr).map p) =
        t.map (fun row => row.map fun fr => (runsOfFrame fr).map p) →
      (rows.flatMap fun row => List.map p (row.flatMap runsOfFrame)) =
        t.flatMap fun row => List.map p (row.flatMap runsOfFrame) := by
    intro rows hmap
    have : ∀ (l : List (List Frame)),
        (l.flatMap fun row => List.map p (row.flatMap runsOfFrame)) =
          ((l.map (fun row => row.map fun fr => (runsOfFrame fr).map p)).map
            List.flatten).flatten := by
      intro l
      induction l with
      | nil => rfl
      | cons row rest ih =>
        simp only [List.flatMap_cons, List.map_cons, List.flatten_cons, ih]
        congr 1
        rw [List.map_flatMap]
        induction row with
        | nil => rfl
        | cons fr rrest rih => simp [List.flatMap_cons, rih]
    rw [this rows, this t, hmap]
  exact key _ hrows

/-- Projection preservation through the collapsed shape walk. -/
theorem collapse_proj_shape (cfg : StyleConfig) (p : Run → β)
    (hp : ∀ r, p (styleRunTot cfg r) = p r) (sh : Shape) :
    (runsOfShape (exCollapse (styleShape cfg sh))).map p = (runsOfShape sh).map p := by
  rcases sh with ⟨fr, tb⟩
  have htb : ∀ o : Option (List (List Frame)),
      ((match o.map (styleTable cfg) with
        | some t => runsOfTable t
        | none => []).map p) =
        (match o with
          | some t => runsOfTable t
          | none => []).map p := by
    intro o
    cases o with
    | none => rfl
    | some t => simpa using collapse_proj_table cfg p hp t
  cases fr with
  | none =>
    simp only [styleShape, exCollapse, runsOfShape, List.nil_append, Option.map]
    exact htb tb
  | some f =>
    cases hf : styleFrame cfg f with
    | ok f1 =>
      have hfr : (runsOfFrame f1).map p = (runsOfFrame f).map p := by
        have h2 := collapse_proj_frame cfg p hp f
        rw [hf] at h2
        simpa [exCollapse] using h2
      simp only [styleShape, hf, exCollapse, runsOfShape, List.map_append]
      rw [hfr]
      exact congrArg _ (htb tb)
    | error f1 =>
      have hfr : (runsOfFrame f1).map p = (runsOfFrame f).map p := by
        have h2 := collapse_proj_frame cfg p hp f
        rw [hf] at h2
        simpa [exCollapse] using h2
      simp only [styleShape, hf, exCollapse, runsOfShape, List.map_append]
      rw [hfr]

/-- Projection preservation through `modify_styles`: any run attribute the
config leaves alone is unchanged on every run, positionally. -/
theorem collapse_proj_doc (cfg : StyleConfig) (p : Run → β)
    (hp : ∀ r, p (styleRunTot cfg r) = p r) (d : Doc) :
    (runsOfDoc (modify_styles cfg d).1).map p = (runsOfDoc d).map p := by
  rw [modify_styles_fst]
  have hshape : ∀ sh : Shape,
      ((exCollapse (styleShape cfg sh) : Shape) |> runsOfShape).map p =
        (runsOfShape sh).map p := collapse_proj_shape cfg p hp
  have hslide : ∀ sl : Slide,
      ((exCollapse (exList (styleShape cfg) sl)).map fun sh => (runsOfShape sh).map p) =
        sl.map fun sh => (runsOfShape sh).map p :=
    exList_collapse_proj _ _ hshape
  have hdoc : (exCollapse (styleSlides cfg d)).map
        (fun sl => sl.map fun sh => (runsOfShape sh).map p) =
      d.map fun sl => sl.map fun sh => (runsOfShape sh).map p :=
    exList_collapse_proj (exList (styleShape cfg))
      (fun sl => sl.map fun sh => (runsOfShape sh).map p) hslide d
  have expand : ∀ (l : Doc),
      (runsOfDoc l).map p =
        ((l.map fun sl => sl.map fun sh => (runsOfShape sh).map p).map
          List.flatten).flatten := by
    intro l
    induction l with
    | nil => rfl
    | cons sl rest ih =>
      have hsl : (runsOfSlide sl).map p =
          (sl.map fun sh => (runsOfShape sh).map p).flatten := by
        unfold runsOfSlide
        induction sl with
        | nil => rfl
        | cons sh srest sih => simp [List.flatMap_cons, sih]
      simp only [runsOfDoc, List.flatMap_cons, List.map_append, List.map_cons,
        List.flatten_cons] at ih ⊢
      rw [hsl, ih]
  rw [expand, expand, hdoc]

/-- **C8.** Style override is idempotent — applying the same `StyleConfig`
twice (including through any partial, exception-aborted application) yields
exactly the state of applying it once — and null config fields leave the
corresponding attribute of every run unchanged (null color meaning no color
scheme or a null `text_color`). -/
theorem c8_styles_idempotent_null_pres (cfg : StyleConfig) (d : Doc) :
    (modify_styles cfg (modify_styles cfg d).1).1 = (modify_styles cfg d).1 ∧
    (cfg.font_name = none →
      (runsOfDoc (modify_styles cfg d).1).map Run.name =
        (runsOfDoc d).map Run.name) ∧
    (cfg.font_size = none →
      (runsOfDoc (modify_styles cfg d).1).map Run.size =
        (runsOfDoc d).map Run.size) ∧
    ((∀ cs, cfg.color_scheme = some cs → cs.text_color = none) →
      (runsOfDoc (modify_styles cfg d).1).map (fun r => (r.colorRgb, r.colorType)) =
        (runsOfDoc d).map fun r => (r.colorRgb, r.colorType)) := by
  refine ⟨?_, ?_, ?_, ?_⟩
  · rw [modify_styles_fst, modify_styles_fst, styleSlides_stab]
  · intro h
    exact collapse_proj_doc cfg Run.name (fun r => styleRunTot_name_pres cfg r h) d
  · intro h
    exact collapse_proj_doc cfg Run.size (fun r => styleRunTot_size_pres cfg r h) d
  · intro h
    have hreq : colorRequested cfg = false := by
      cases hcs : cfg.color_scheme with
      | none => simp [colorRequested, hcs]
      | some cs => simp [colorRequested, hcs, h cs hcs, pyTruthyOptStr]
    refine collapse_proj_doc cfg (fun r => (r.colorRgb, r.colorType)) (fun r => ?_) d
    have := styleRunTot_color_pres cfg r hreq
    simp [this.1, this.2]

/-- Witness for C8: the all-null config on a one-run document. -/
theorem c8_styles_idempotent_null_pres_witness :
    (modify_styles {} (modify_styles {}
        [[({ frame := some ⟨[[{ text := "x", name := some "Arial" }]]⟩ } : Shape)]]).1).1 =
      (modify_styles {}
        [[({ frame := some ⟨[[{ text := "x", name := some "Arial" }]]⟩ } : Shape)]]).1 ∧
    (runsOfDoc (modify_styles {}
        [[({ frame := some ⟨[[{ text := "x", name := some "Arial" }]]⟩ } : Shape)]]).1).map
        Run.name =
      (runsOfDoc
        [[({ frame := some ⟨[[{ text := "x", name := some "Arial" }]]⟩ } : Shape)]]).map
        Run.name :=
  ⟨(c8_styles_idempotent_null_pres {}
      [[({ frame := some ⟨[[{ text := "x", name := some "Arial" }]]⟩ } : Shape)]]).1,
   (c8_styles_idempotent_null_pres {}
      [[({ frame := some ⟨[[{ text := "x", name := some "Arial" }]]⟩ } : Shape)]]).2.1 rfl⟩

/-! ### Extracted text is blank only when empty (towards C7) -/

/-- `strip` erases a string exactly when it is all whitespace. -/
theorem pyStripL_eq_nil_iff (l : List Char) :
    pyStripL l = [] ↔ ∀ c ∈ l, isPySpace c = true := by
  unfold pyStripL
  rw [List.reverse_eq_nil_iff, List.dropWhile_eq_nil_iff]
  constructor
  · intro h c hc
    by_cases hdrop : c ∈ l.dropWhile isPySpace
    · exact h c (List.mem_reverse.mpr hdrop)
    · -- c was dropped, i.e. it sits in the all-whitespace prefix
      have : ∀ x ∈ l, isPySpace x = true → True := fun _ _ _ => trivial
      -- argue by induction on l
      clear this
      induction l with
      | nil => simp at hc
      | cons a rest ih =>
        by_cases ha : isPySpace a
        · rcases List.mem_cons.mp hc with rfl | hcr
          · exact ha
          · apply ih
            · intro x hx
              apply h
              rw [List.dropWhile_cons, if_pos ha] at *
              exact hx
            · exact hcr
            · rw [List.dropWhile_cons, if_pos ha] at hdrop
              exact hdrop
        · rw [List.dropWhile_cons, if_neg ha] at hdrop
          exact absurd hc hdrop
  · intro h c hc
    exact h c ((List.dropWhile_sublist _).subset (List.mem_reverse.mp hc))

/-- `pyStrip s = ""` exactly when `s` is all whitespace. -/
theorem pyStrip_eq_empty_iff (s : String) :
    pyStrip s = "" ↔ ∀ c ∈ s.data, isPySpace c = true := by
  rw [String.ext_iff]
  show pyStripL s.data = ([] : List Char) ↔ _
  exact pyStripL_eq_nil_iff s.data

/-- Every character of a joined part occurs in the join. -/
theorem mem_data_pyJoin (sep : String) (parts : List String) (x : String)
    (hx : x ∈ parts) (c : Char) (hc : c ∈ x.data) : c ∈ (pyJoin sep parts).data := by
  induction parts with
  | nil => simp at hx
  | cons y rest ih =>
    cases rest with
    | nil =>
      simp only [List.mem_singleton] at hx
      subst hx
      simpa [pyJoin] using hc
    | cons z rrest =>
      rcases List.mem_cons.mp hx with rfl | hxr
      · simp [pyJoin, String.data_append, List.mem_append]
        tauto
      · have hrec := ih hxr
        simp [pyJoin, String.data_append, List.mem_append] at hrec ⊢
        tauto

/-- The analyzer's per-slide text is blank only when it is the empty string:
every part that survives the filter strips non-empty, hence carries a
non-whitespace character into the join. -/
theorem slideCombinedText_strip_ne (sl : Slide)
    (h : slideCombinedText sl ≠ "") : pyStrip (slideCombinedText sl) ≠ "" := by
  have key : ∀ parts : List String, (∀ x ∈ parts, pyStrip x ≠ "") →
      pyJoin " " parts ≠ "" → pyStrip (pyJoin " " parts) ≠ "" := by
    intro parts hall hne
    cases parts with
    | nil => exact absurd rfl hne
    | cons x rest =>
      have hxs : pyStrip x ≠ "" := hall x (List.mem_cons_self x rest)
      have hex : ∃ c ∈ x.data, isPySpace c = false := by
        by_contra hcon
        push_neg at hcon
        apply hxs
        rw [pyStrip_eq_empty_iff]
        intro c hc
        have h2 := hcon c hc
        simpa using h2
      obtain ⟨c, hcx, hcs⟩ := hex
      intro hcontra
      rw [pyStrip_eq_empty_iff] at hcontra
      have hcj := mem_data_pyJoin " " (x :: rest) x (List.mem_cons_self x rest) c hcx
      rw [hcontra c hcj] at hcs
      exact absurd hcs (by decide)
  unfold slideCombinedText at h ⊢
  refine key _ (fun x hx => ?_) h
  have h2 := (List.mem_filter.mp hx).2
  simpa using h2

/-- The replacement-building loop is a `filterMap` over the slide texts. -/
theorem buildReplacements_eq_filterMap (cl : String → ℚ) (mn : String) (th : ℚ)
    (sts : List SlideText) :
    buildReplacements cl mn th sts =
      sts.filterMap fun st =>
        if pyStrip st.text ≠ "" ∧ (detect mn cl st.text).is_ai_generated = true ∧
            (detect mn cl st.text).confidence ≥ th then
          some { slide_num := st.slide_number, old_text := st.text,
                 new_text := generate st.text }
        else none := by
  induction sts with
  | nil => rfl
  | cons st rest ih =>
    have hstep : buildReplacements cl mn th (st :: rest) =
        if pyStrip st.text = "" then buildReplacements cl mn th rest
        else if (detect mn cl st.text).is_ai_generated = true ∧
            (detect mn cl st.text).confidence ≥ th then
          { slide_num := st.slide_number, old_text := st.text,
            new_text := generate st.text } :: buildReplacements cl mn th rest
        else buildReplacements cl mn th rest := rfl
    rw [hstep, ih, List.filterMap_cons]
    by_cases hb : pyStrip st.text = ""
    · simp [hb]
    · by_cases hc : (detect mn cl st.text).is_ai_generated = true ∧
          (detect mn cl st.text).confidence ≥ th
      · simp [hb, hc]
      · simp [hb, hc]

/-- `mkStyleConfig` requests a color exactly when `text_color` is truthy. -/
theorem colorRequested_mkStyleConfig (fn tc : Option String) :
    colorRequested (mkStyleConfig fn tc) = pyTruthyOptStr tc := by
  by_cases h : pyTruthyOptStr tc <;> simp [mkStyleConfig, colorRequested, h]

/-- **C7.** In the modification route, a content replacement is created for
a slide iff the slide's extracted text is non-empty, its detection is AI,
and the confidence is at or above the threshold (the code tests
`text.strip()`, but the analyzer's space-join of stripped parts is blank
only when empty, so the two conditions coincide); and whenever some style
field is truthy — provided a requested color actually parses, otherwise the
route fails with no document — the style override lands on every run of
every slide, regardless of the replacement step. -/
theorem c7_replacement_iff_styles_global (cl : String → ℚ) (mn : String)
    (replace_ai : Bool) (font_name text_color : Option String) (th : ℚ) (doc : Doc) :
    buildReplacements cl mn th (extract_text doc) =
      (extract_text doc).filterMap (fun st =>
        if st.text ≠ "" ∧ (detect mn cl st.text).is_ai_generated = true ∧
            (detect mn cl st.text).confidence ≥ th then
          some { slide_num := st.slide_number, old_text := st.text,
                 new_text := generate st.text }
        else none) ∧
    ((pyTruthyOptStr font_name = true ∨ pyTruthyOptStr text_color = true) →
      (colorRequested (mkStyleConfig font_name text_color) = true →
        (styleColorValue (mkStyleConfig font_name text_color)).isSome) →
      ∀ r ∈ runsOfDoc (modify_pptx cl mn replace_ai font_name text_color th doc),
        (pyTruthyOptStr font_name = true → r.name = font_name) ∧
        (pyTruthyOptStr text_color = true →
          ∃ rgb, styleColorValue (mkStyleConfig font_name text_color) = some rgb ∧
            r.colorRgb = some rgb)) := by
  constructor
  · rw [buildReplacements_eq_filterMap]
    refine List.filterMap_congr fun st hst => ?_
    have hst2 : ∃ i sl, (i, sl) ∈ doc.enum ∧
        ({ slide_number := i, text := slideCombinedText sl,
           shape_count := sl.length } : SlideText) = st := by
      simpa [extract_text] using hst
    obtain ⟨i, sl, _, rfl⟩ := hst2
    by_cases hne : slideCombinedText sl = ""
    · have hz : pyStrip ("" : String) = "" := by decide
      simp [hne, hz]
    · have := slideCombinedText_strip_ne sl hne
      simp [hne, this]
  · intro hstyle hsucc r hr
    have hcond : (pyTruthyOptStr font_name || pyTruthyOptStr text_color) = true := by
      rcases hstyle with h | h <;> simp [h]
    have heq : modify_pptx cl mn replace_ai font_name text_color th doc =
        mapRunsDoc (styleRunTot (mkStyleConfig font_name text_color))
          (if replace_ai then
            replace_content doc
              (buildReplacements cl mn th (extract_text doc))
          else doc) := by
      unfold modify_pptx
      rw [hcond]
      simp only [if_true]
      rw [modify_styles_ok _ hsucc]
    rw [heq, runsOfDoc_mapRuns] at hr
    obtain ⟨r0, _, rfl⟩ := List.mem_map.mp hr
    constructor
    · intro hn
      exact styleRunTot_name_set _ r0 (by simpa [mkStyleConfig] using hn)
    · intro htc
      have hreq : colorRequested (mkStyleConfig font_name text_color) = true := by
        rw [colorRequested_mkStyleConfig, htc]
      obtain ⟨rgb, hval⟩ := Option.isSome_iff_exists.mp (hsucc hreq)
      exact ⟨rgb, hval, styleRunTot_color_set _ r0 rgb hreq hval⟩

/-- Witness for C7: font `"Arial"`, no color, on a one-run document (the
replacement step disabled), applying the theorem's style clause to the run
of the styled output. -/
theorem c7_replacement_iff_styles_global_witness :
    (pyTruthyOptStr (some "Arial") = true ∨
      pyTruthyOptStr (none : Option String) = true) ∧
    (colorRequested (mkStyleConfig (some "Arial") none) = true →
      (styleColorValue (mkStyleConfig (some "Arial") none)).isSome) ∧
    ({ text := "x", name := some "Arial" } : Run) ∈
      runsOfDoc (modify_pptx (fun _ => 1) "m" false (some "Arial") none (7/10)
        [[({ frame := some ⟨[[{ text := "x" }]]⟩ } : Shape)]]) ∧
    ({ text := "x", name := some "Arial" } : Run).name = some "Arial" :=
  ⟨Or.inl (by decide), by decide, by decide,
   ((c7_replacement_iff_styles_global (fun _ => 1) "m" false (some "Arial") none (7/10)
        [[({ frame := some ⟨[[{ text := "x" }]]⟩ } : Shape)]]).2
      (Or.inl (by decide)) (by decide)
      ({ text := "x", name := some "Arial" } : Run) (by decide)).1 (by decide)⟩

end PostAutomation
